import Mathlib

/-!
Verification of the stamp-detection and identification core of the Stamps
repository, shallowly embedded in Lean 4.

Conventions of the embedding:
* Python floats are modelled as rationals; all arithmetic on them is exact.
* Numeric summaries that the code reads off OpenCV results (variance of the
  LAB channels, Canny edge-pixel density, per-band variances) are carried as
  attributes of an abstract crop record, since the claims under study only
  concern the control flow and arithmetic applied to those values.
* Fallible code is modelled in the Except monad.  cv2.cvtColor raises on an
  empty (zero-sized) array; the source catches this inside the color-variance
  and perforation checks but not inside the edge-complexity check.
-/

namespace Stamps

/-- Python max(d, key=d.get): fold keeping the current best, replacing it only
on a strictly larger value, so the first of several tied maxima wins. -/
def pyMaxPair (p : String × ℚ) : List (String × ℚ) → String × ℚ
  | [] => p
  | q :: rest => pyMaxPair (if p.2 < q.2 then q else p) rest

/-- Python min(d, key=d.get): first of several tied minima wins. -/
def pyMinPair (p : String × ℚ) : List (String × ℚ) → String × ℚ
  | [] => p
  | q :: rest => pyMinPair (if q.2 < p.2 then q else p) rest

/-! ## Stage 1B: StampClassifier (src/stamp_classifier.py) -/

/-- ClassifierConfig from stamp_classifier.py, with the source defaults. -/
structure ClassifierConfig where
  mode : String := "heuristic"
  confidence_threshold : ℚ := 6/10
  color_variance_weight : ℚ := 35/100
  edge_complexity_weight : ℚ := 30/100
  size_weight : ℚ := 20/100
  perforation_weight : ℚ := 15/100
  min_color_variance : ℚ := 500
  min_edge_density : ℚ := 5/100
  min_stamp_width : ℕ := 50
  max_stamp_width : ℕ := 500
  min_stamp_height : ℕ := 50
  max_stamp_height : ℕ := 500
  perforation_edge_band : ℕ := 5
  perforation_variance_high : ℚ := 1000
  perforation_variance_low : ℚ := 200
deriving Repr, DecidableEq

/-- Abstraction of a BGR crop (numpy image): its pixel dimensions together
with the numeric summaries the classifier heuristics read from OpenCV.
labVariance is the summed per-channel variance of the LAB conversion,
edgeDensity the Canny edge-pixel count divided by the total pixel count, and
the band fields are the variances of the four edge bands of the Canny map. -/
structure Crop where
  width : ℕ
  height : ℕ
  labVariance : ℚ
  edgeDensity : ℚ
  topBandVar : ℚ
  bottomBandVar : ℚ
  leftBandVar : ℚ
  rightBandVar : ℚ
deriving Repr, DecidableEq

/-- cv2.cvtColor succeeds exactly on non-empty arrays; a zero-sized crop makes
it raise. -/
def Crop.cvtOk (c : Crop) : Bool := 0 < c.width ∧ 0 < c.height

/-- StampClassification from stamp_classifier.py.  The details dict is kept
as an association list in Python insertion order. -/
structure StampClassification where
  is_stamp : Bool
  confidence : ℚ
  reason : String
  details : List (String × ℚ)
deriving Repr, DecidableEq

/-- StampClassifier._check_color_variance: cvtColor failure is caught and
scored neutral 1/2; low variance scores 1/10; otherwise scaled by the fixed
ceiling 10000 and capped at 1. -/
def check_color_variance (cfg : ClassifierConfig) (c : Crop) : ℚ :=
  if ¬ c.cvtOk then 1/2
  else if c.labVariance < cfg.min_color_variance then 1/10
  else min (c.labVariance / 10000) 1

/-- The value StampClassifier._check_edge_complexity computes when
cv2.cvtColor succeeds. -/
def edge_complexity_score (cfg : ClassifierConfig) (c : Crop) : ℚ :=
  if c.edgeDensity < cfg.min_edge_density then 2/10
  else min (c.edgeDensity / (25/100)) 1

/-- StampClassifier._check_edge_complexity: unlike the color-variance and
perforation checks, its cv2.cvtColor call is not wrapped in try/except, so a
degenerate crop makes the check raise. -/
def check_edge_complexity (cfg : ClassifierConfig) (c : Crop) : Except Unit ℚ :=
  if ¬ c.cvtOk then .error ()
  else .ok (edge_complexity_score cfg c)

/-- StampClassifier._check_size: independent width and height scores averaged. -/
def check_size (cfg : ClassifierConfig) (c : Crop) : ℚ :=
  let width_score : ℚ :=
    if c.width < cfg.min_stamp_width ∨ c.width > cfg.max_stamp_width then 3/10
    else 1 - min (|(c.width : ℚ) - 150| / 150) (7/10)
  let height_score : ℚ :=
    if c.height < cfg.min_stamp_height ∨ c.height > cfg.max_stamp_height then 3/10
    else 1 - min (|(c.height : ℚ) - 180| / 180) (7/10)
  (width_score + height_score) / 2

/-- Tail of StampClassifier._check_perforation_hint: no available bands is
neutral 1/2; otherwise the mean band variance is compared against the high
and low thresholds. -/
def perforation_score_of (cfg : ClassifierConfig) (edge_variances : List ℚ) : ℚ :=
  if edge_variances = [] then 1/2
  else
    let avg_variance := edge_variances.sum / (edge_variances.length : ℚ)
    if avg_variance > cfg.perforation_variance_high then 1
    else if avg_variance < cfg.perforation_variance_low then 3/10
    else 1/2

/-- StampClassifier._check_perforation_hint: cvtColor failure is caught and
scored neutral 1/2; otherwise the top and bottom bands are sampled when the
height exceeds the band width, the left and right bands when the width does. -/
def check_perforation_hint (cfg : ClassifierConfig) (c : Crop) : ℚ :=
  if ¬ c.cvtOk then 1/2
  else
    let band := cfg.perforation_edge_band
    perforation_score_of cfg
      ((if c.height > band then [c.topBandVar, c.bottomBandVar] else []) ++
        (if c.width > band then [c.leftBandVar, c.rightBandVar] else []))

/-- StampClassifier._heuristic_check.  The uncaught cvtColor failure inside
the edge-complexity check propagates. -/
def heuristic_check (cfg : ClassifierConfig) (c : Crop) :
    Except Unit StampClassification := do
  let s1 := check_color_variance cfg c
  let s2 ← check_edge_complexity cfg c
  let s3 := check_size cfg c
  let s4 := check_perforation_hint cfg c
  let scores : List (String × ℚ) :=
    [("color_variance", s1), ("edge_complexity", s2),
     ("size_plausibility", s3), ("perforation_hint", s4)]
  let confidence :=
    s1 * cfg.color_variance_weight + s2 * cfg.edge_complexity_weight +
      s3 * cfg.size_weight + s4 * cfg.perforation_weight
  let is_stamp : Bool := cfg.confidence_threshold ≤ confidence
  let reason :=
    if is_stamp then
      (pyMaxPair ("color_variance", s1) [("edge_complexity", s2),
        ("size_plausibility", s3), ("perforation_hint", s4)]).1
    else
      (pyMinPair ("color_variance", s1) [("edge_complexity", s2),
        ("size_plausibility", s3), ("perforation_hint", s4)]).1
  .ok ⟨is_stamp, confidence, reason, scores⟩

/-- StampClassifier._model_predict with self.model absent (the source never
assigns self.model: loading is a TODO), as reached from classify. -/
def model_predict : StampClassification :=
  ⟨true, 1/2, "model_unavailable", []⟩

/-- StampClassifier.classify.  model carries self.model, which the source
never assigns (loading is a TODO), so both model branches test isSome and are
dead code.  In the dead "both" branch the source stores a nested dict of
sub-details, which the flat score map cannot hold; the claims under study
never reach that branch, so its details are left empty here. -/
def classify (cfg : ClassifierConfig) (model : Option Unit) (c : Crop) :
    Except Unit StampClassification :=
  if cfg.mode = "model" ∧ model.isSome then .ok model_predict
  else if cfg.mode = "both" ∧ model.isSome then do
    let heuristic ← heuristic_check cfg c
    let combined_conf := (heuristic.confidence + model_predict.confidence) / 2
    .ok ⟨decide (cfg.confidence_threshold ≤ combined_conf), combined_conf,
      "combined(" ++ heuristic.reason ++ ", " ++ model_predict.reason ++ ")",
      []⟩
  else heuristic_check cfg c

/-! ## Stage 1A: PolygonDetector (src/polygon_detector.py)

The pixel-level preprocessing (grayscale, blur, adaptive threshold,
morphology, findContours) and the Douglas-Peucker approximation are OpenCV
computations on raster data; the embedding abstracts them as oracles and
keeps the per-contour filtering logic of _process_contour exact. -/

/-- DetectionConfig from polygon_detector.py (area-fraction fields are the
source's min_area_ratio and max_area_ratio, with the source defaults). -/
structure DetectionConfig where
  mode : String := "album"
  min_vertices : ℕ := 3
  max_vertices : ℕ := 4
  min_area_frac : ℚ := 1/1000
  max_area_frac : ℚ := 15/100
  aspect_min : ℚ := 3/10
  aspect_max : ℚ := 3
  approx_epsilon : ℚ := 2/100
  require_convex : Bool := true
deriving Repr, DecidableEq

/-- A raw contour, abstracted to the two quantities _process_contour reads
from it directly: cv2.contourArea and the closed cv2.arcLength. -/
structure Contour where
  area : ℚ
  perimeter : ℚ
deriving Repr, DecidableEq

/-- Result of cv2.approxPolyDP on a contour: the vertex list, together with
the cv2.isContourConvex verdict on it. -/
structure ApproxPoly where
  points : List (ℤ × ℤ)
  convex : Bool
deriving Repr, DecidableEq

/-- cv2.boundingRect of integer points: minimal axis-aligned rectangle, with
width and height counted inclusively. -/
def boundingRect : List (ℤ × ℤ) → ℤ × ℤ × ℤ × ℤ
  | [] => (0, 0, 0, 0)
  | p :: ps =>
    let xs := (p :: ps).map Prod.fst
    let ys := (p :: ps).map Prod.snd
    let x := xs.foldl min p.1
    let y := ys.foldl min p.2
    let xmax := xs.foldl max p.1
    let ymax := ys.foldl max p.2
    (x, y, xmax - x + 1, ymax - y + 1)

/-- DetectedPolygon from polygon_detector.py (aspect is the source's
aspect_ratio field). -/
structure DetectedPolygon where
  vertices : List (ℤ × ℤ)
  bounding_box : ℤ × ℤ × ℤ × ℤ
  shape_type : String
  area : ℚ
  aspect : ℚ
  cropped_image : Crop
  confidence : ℚ := 1
deriving Repr, DecidableEq

/-- PolygonDetector._process_contour.  approxFn is the cv2.approxPolyDP
oracle (contour and epsilon to approximated polygon); extractFn is the
_extract_crop oracle (vertices and shape tag to rectified crop, reading the
image pixels). -/
def process_contour (cfg : DetectionConfig)
    (approxFn : Contour → ℚ → ApproxPoly)
    (extractFn : List (ℤ × ℤ) → String → Crop)
    (contour : Contour) (image_area : ℚ) : Option DetectedPolygon :=
  let area := contour.area
  let min_area := image_area * cfg.min_area_frac
  let max_area := image_area * cfg.max_area_frac
  if area < min_area ∨ area > max_area then none
  else
    let epsilon := cfg.approx_epsilon * contour.perimeter
    let approx := approxFn contour epsilon
    let num_vertices := approx.points.length
    if num_vertices < cfg.min_vertices ∨ num_vertices > cfg.max_vertices then none
    else if cfg.require_convex ∧ ¬ approx.convex then none
    else
      let (x, y, w, h) := boundingRect approx.points
      let aspect : ℚ := if h > 0 then (w : ℚ) / (h : ℚ) else 0
      if aspect < cfg.aspect_min ∨ aspect > cfg.aspect_max then none
      else
        let shape_type := if num_vertices = 3 then "triangle" else "quadrilateral"
        some
          { vertices := approx.points
            bounding_box := (x, y, w, h)
            shape_type := shape_type
            area := area
            aspect := aspect
            cropped_image := extractFn approx.points shape_type
            confidence := 1 }

/-- PolygonDetector.detect, given the contour list the preprocessing oracle
found in the image. -/
def polygon_detect (cfg : DetectionConfig)
    (approxFn : Contour → ℚ → ApproxPoly)
    (extractFn : List (ℤ × ℤ) → String → Crop)
    (contours : List Contour) (image_area : ℚ) : List DetectedPolygon :=
  contours.filterMap (fun c => process_contour cfg approxFn extractFn c image_area)

/-! ## Stage 1C and pipeline (src/src/vision/detection/pipeline.py,
src/src/vision/detection/yolo_detector.py) -/

/-- YOLODetection from yolo_detector.py; the crop is optional in the source
dataclass. -/
structure YOLODetection where
  bounding_box : ℤ × ℤ × ℤ × ℤ
  confidence : ℚ
  cropped_image : Option Crop := none
  class_name : String := "stamp"
deriving Repr, DecidableEq

/-- PipelineConfig fields the orchestration logic reads. -/
structure PipelineConfig where
  enable_yolo_fallback : Bool := true
deriving Repr, DecidableEq

/-- DetectedStamp from pipeline.py. -/
structure DetectedStamp where
  detection_id : String
  shape_type : String
  bounding_box : ℤ × ℤ × ℤ × ℤ
  vertices : Option (List (ℤ × ℤ))
  cropped_image : Option Crop
  classifier_passed : Bool
  classifier_confidence : ℚ
  classifier_reason : String
  classifier_details : List (String × ℚ)
  source : String
  detection_confidence : ℚ
deriving Repr, DecidableEq

/-- Zero-padded three-digit counter used in the f-string detection ids. -/
def pad3 (n : ℕ) : String :=
  if n < 10 then "00" ++ toString n
  else if n < 100 then "0" ++ toString n
  else toString n

/-- The DetectedStamp built for polygon i in detect_stamps. -/
def mkGeoStamp (i : ℕ) (p : DetectedPolygon) (cls : StampClassification) :
    DetectedStamp :=
  { detection_id := "cv_" ++ pad3 (i + 1)
    shape_type := p.shape_type
    bounding_box := p.bounding_box
    vertices := some p.vertices
    cropped_image := some p.cropped_image
    classifier_passed := cls.is_stamp
    classifier_confidence := cls.confidence
    classifier_reason := cls.reason
    classifier_details := cls.details
    source := "polygon_cv"
    detection_confidence := p.confidence }

/-- Stage 1B loop of detect_stamps: classify each polygon in order,
partitioning into accepted and rejected.  A classification failure is not
caught anywhere on this path, so it aborts the whole call. -/
def stage1B (cfg : ClassifierConfig) (model : Option Unit) :
    ℕ → List DetectedPolygon →
    Except Unit (List DetectedStamp × List DetectedStamp)
  | _, [] => .ok ([], [])
  | i, p :: rest => do
    let cls ← classify cfg model p.cropped_image
    let stamp := mkGeoStamp i p cls
    let (acc, rej) ← stage1B cfg model (i + 1) rest
    if cls.is_stamp then .ok (stamp :: acc, rej) else .ok (acc, stamp :: rej)

/-- The DetectedStamp built for fallback detection i in _run_yolo_fallback. -/
def mkYoloStamp (i : ℕ) (det : YOLODetection) (cls : StampClassification) :
    DetectedStamp :=
  { detection_id := "yolo_" ++ pad3 (i + 1)
    shape_type := "quadrilateral"
    bounding_box := det.bounding_box
    vertices := none
    cropped_image := det.cropped_image
    classifier_passed := true
    classifier_confidence := cls.confidence
    classifier_reason := "yolo_fallback"
    classifier_details := cls.details
    source := "yolo_fallback"
    detection_confidence := det.confidence }

/-- The StampClassification _run_yolo_fallback constructs for a detection
whose crop is None, bypassing the classifier. -/
def yoloNoCropClassification (det : YOLODetection) : StampClassification :=
  ⟨true, det.confidence, "yolo_detection", [("yolo_confidence", det.confidence)]⟩

/-- Loop body of _run_yolo_fallback over the enumerated detections: boxes
with a crop go through the classifier, boxes without one are accepted with
the raw detector confidence; only accepted boxes yield stamps. -/
def runYoloGo (cfg : ClassifierConfig) (model : Option Unit) :
    ℕ → List YOLODetection → Except Unit (List DetectedStamp)
  | _, [] => .ok []
  | i, det :: rest => do
    let cls ←
      match det.cropped_image with
      | some crop => classify cfg model crop
      | none => .ok (yoloNoCropClassification det)
    let stamps ← runYoloGo cfg model (i + 1) rest
    if cls.is_stamp then .ok (mkYoloStamp i det cls :: stamps) else .ok stamps

/-- DetectionPipeline._run_yolo_fallback.  yolo carries the fallback
detector's output on the image, or none when the detector is absent or
unavailable (in which case the source logs and returns no stamps). -/
def run_yolo_fallback (cfg : ClassifierConfig) (model : Option Unit)
    (yolo : Option (List YOLODetection)) : Except Unit (List DetectedStamp) :=
  match yolo with
  | none => .ok []
  | some detections => runYoloGo cfg model 0 detections

/-- DetectionPipeline.detect_stamps, given the Stage-1A polygons found in the
image and the fallback detector's output on it. -/
def detect_stamps (pcfg : PipelineConfig) (cfg : ClassifierConfig)
    (model : Option Unit) (polygons : List DetectedPolygon)
    (yolo : Option (List YOLODetection)) (use_yolo_fallback : Bool) :
    Except Unit (List DetectedStamp × List DetectedStamp) := do
  let (accepted, rejected) ← stage1B cfg model 0 polygons
  if accepted.length = 0 ∧ use_yolo_fallback ∧ pcfg.enable_yolo_fallback then
    let yolo_stamps ← run_yolo_fallback cfg model yolo
    .ok (accepted ++ yolo_stamps, rejected)
  else
    .ok (accepted, rejected)

/-! ## MatchTier / Searcher (src/src/rag/search.py)

The external embedder and the Supabase vector store are opaque collaborators;
they are passed in as functions, which also fixes their responses, as the
determinism claim requires. -/

/-- RAGEntry from supabase_client.py (the optional database bookkeeping
fields id, created_at and updated_at are omitted: nothing in the searcher
reads them). -/
structure RAGEntry where
  colnect_id : String
  colnect_url : String
  image_url : String
  description : String
  embedding : List ℚ
  country : String
  year : ℤ
deriving Repr, DecidableEq

/-- The settings the searcher reads, with the config.py defaults. -/
structure Settings where
  RAG_MATCH_AUTO_THRESHOLD : ℚ := 9/10
  RAG_MATCH_MIN_THRESHOLD : ℚ := 1/2
deriving Repr, DecidableEq

/-- MatchConfidence from search.py. -/
inductive MatchConfidence where
  | auto_accept
  | review
  | no_match
deriving Repr, DecidableEq

/-- SearchResult from search.py. -/
structure SearchResult where
  entry : RAGEntry
  similarity : ℚ
  rank : ℕ
deriving Repr, DecidableEq

/-- IdentificationResult from search.py. -/
structure IdentificationResult where
  query_description : String
  top_matches : List SearchResult
  confidence : MatchConfidence
  auto_match : Option SearchResult := none
deriving Repr, DecidableEq

/-- The vector store collaborator: SupabaseRAG.search as a function of the
query embedding, the limit, the optional country and year filters, and the
minimum similarity, returning (entry, similarity) pairs in the store's
descending-similarity order. -/
def VectorStore : Type :=
  List ℚ → ℕ → Option String → Option ℤ → ℚ → List (RAGEntry × ℚ)

/-- The embedder collaborator: EmbeddingGenerator.embed as a function from
text to vector, with its responses fixed. -/
def Embedder : Type := String → List ℚ

/-- 1-based rank assignment in input order, starting after rank m: the
enumerate in RAGSearcher.search and the running length in find_similar. -/
def rankifyFrom (m : ℕ) : List (RAGEntry × ℚ) → List SearchResult
  | [] => []
  | (e, s) :: rest => ⟨e, s, m + 1⟩ :: rankifyFrom (m + 1) rest

/-- RAGSearcher.search: embed the query, query the store, convert to ranked
SearchResults.  min_threshold none means the settings default. -/
def searchRAG (settings : Settings) (embedFn : Embedder) (store : VectorStore)
    (query : String) (top_k : ℕ) (country : Option String) (year : Option ℤ)
    (min_threshold : Option ℚ) : List SearchResult :=
  let threshold := min_threshold.getD settings.RAG_MATCH_MIN_THRESHOLD
  let embedding := embedFn query
  let results := store embedding top_k country year threshold
  rankifyFrom 0 results

/-- RAGSearcher.identify: search with twice the requested top_k at the
configured floor, then tier on the highest-similarity result. -/
def identifyRAG (settings : Settings) (embedFn : Embedder) (store : VectorStore)
    (description : String) (top_k : ℕ) (country : Option String)
    (year : Option ℤ) : IdentificationResult :=
  let all_matches := searchRAG settings embedFn store description (top_k * 2)
    country year (some settings.RAG_MATCH_MIN_THRESHOLD)
  match all_matches with
  | [] => ⟨description, [], .no_match, none⟩
  | best :: rest =>
    if best.similarity ≥ settings.RAG_MATCH_AUTO_THRESHOLD then
      ⟨description, ((best :: rest).take top_k), .auto_accept, some best⟩
    else
      ⟨description, ((best :: rest).take top_k), .review, none⟩

/-- The result-collection loop of RAGSearcher.find_similar: skip the seed
entry when excluding self, append with the next 1-based rank, and stop once
top_k results have been collected (the stop test runs after each append). -/
def collectSimilar (colnect_id : String) (exclude_self : Bool) (top_k : ℕ)
    (acc : List SearchResult) : List (RAGEntry × ℚ) → List SearchResult
  | [] => acc
  | (e, s) :: rest =>
    if exclude_self ∧ e.colnect_id = colnect_id then
      collectSimilar colnect_id exclude_self top_k acc rest
    else
      let acc' := acc ++ [⟨e, s, acc.length + 1⟩]
      if top_k ≤ acc'.length then acc'
      else collectSimilar colnect_id exclude_self top_k acc' rest

/-- RAGSearcher.find_similar.  lookup is SupabaseRAG.get_by_colnect_id; the
store is queried with the entry's own embedding, limit top_k + 1 when
excluding self (top_k otherwise), no filters, and the supabase_client default
minimum similarity 0. -/
def find_similar (lookup : String → Option RAGEntry) (store : VectorStore)
    (colnect_id : String) (top_k : ℕ) (exclude_self : Bool) :
    Except String (List SearchResult) :=
  match lookup colnect_id with
  | none => .error ("Stamp not found: " ++ colnect_id)
  | some entry =>
    if entry.embedding = [] then
      .error ("Stamp has no embedding: " ++ colnect_id)
    else
      let results := store entry.embedding
        (top_k + (if exclude_self then 1 else 0)) none none 0
      .ok (collectSimilar colnect_id exclude_self top_k [] results)

/-! ## Embedder (src/src/rag/embeddings.py)

The OpenAI provider is abstracted as a function giving one embedding per
input text; a batched create call returns response.data aligned with its
input list, so a call on a batch is that function mapped over the batch. -/

/-- Python str.strip(): remove leading and trailing whitespace. -/
def pyStrip (s : String) : String :=
  ⟨((s.data.dropWhile Char.isWhitespace).reverse.dropWhile
      Char.isWhitespace).reverse⟩

/-- Python falsiness of text or text.strip(): empty or whitespace-only. -/
def blankText (s : String) : Prop := s = "" ∨ pyStrip s = ""

instance : DecidablePred blankText := fun s => by unfold blankText; infer_instance

/-- EmbeddingGenerator.embed: empty or whitespace-only text raises an
EmbeddingError before any provider call; otherwise the stripped text is
embedded. -/
def embed (api : String → List ℚ) (text : String) : Except String (List ℚ) :=
  if blankText text then .error "Cannot embed empty text"
  else .ok (api (pyStrip text))

/-- The while loop of embed_batch: process the valid items in chunks of
MAX_BATCH_SIZE = 2048, accumulating index-to-embedding pairs. -/
def processBatches (api : String → List ℚ) (items : List (ℕ × String)) :
    List (ℕ × List ℚ) :=
  if items = [] then []
  else
    (items.take 2048).map (fun p => (p.1, api p.2)) ++
      processBatches api (items.drop 2048)
termination_by items.length
decreasing_by
  simp only [List.length_drop]
  have : 0 < items.length := List.length_pos.mpr (by assumption)
  omega

/-- EmbeddingGenerator.embed_batch: filter out blank texts keeping indices,
embed the rest in batches, and rebuild a list aligned with the input, with
blank inputs mapped to empty vectors. -/
def embed_batch (api : String → List ℚ) (texts : List String) : List (List ℚ) :=
  if texts = [] then []
  else
    let valid_items := (texts.enum.filter
      (fun p => ¬ blankText p.2)).map (fun p => (p.1, pyStrip p.2))
    if valid_items = [] then texts.map (fun _ => [])
    else
      let all_embeddings := processBatches api valid_items
      (List.range texts.length).map
        (fun i => (all_embeddings.lookup i).getD [])

/-- The keep test of the find_similar loop as a Boolean predicate: a result
survives unless self-exclusion is on and its identifier equals the seed's. -/
def keepResult (cid : String) (ex : Bool) (p : RAGEntry × ℚ) : Bool :=
  decide (¬ (ex = true ∧ p.1.colnect_id = cid))

/-- Modelled from the spec: the result list find_similar is claimed to
return — the store's descending-order answer at limit top_k + 1 with the
seed entry excluded by identifier, truncated to top_k and ranked 1-based. -/
def find_similar_spec_list (store : VectorStore) (cid : String) (top_k : ℕ)
    (entry : RAGEntry) : List SearchResult :=
  rankifyFrom 0
    (((store entry.embedding (top_k + 1) none none 0).filter
      (keepResult cid true)).take top_k)

/-! ## Concrete fixtures used by witnesses and counterexamples -/

/-- A crop on which every heuristic scores 1: ideal 150 by 180 size, LAB
variance at the ceiling, edge density at the ceiling, strongly varying edge
bands. -/
def idealCrop : Crop :=
  { width := 150, height := 180, labVariance := 10000, edgeDensity := 25/100
    topBandVar := 2000, bottomBandVar := 2000, leftBandVar := 2000
    rightBandVar := 2000 }

/-- A zero-sized crop, on which cv2.cvtColor raises. -/
def emptyCrop : Crop :=
  { width := 0, height := 0, labVariance := 0, edgeDensity := 0
    topBandVar := 0, bottomBandVar := 0, leftBandVar := 0, rightBandVar := 0 }

/-- A crop with maximal color variance but almost no edges. -/
def colorfulFlatCrop : Crop :=
  { width := 100, height := 100, labVariance := 20000, edgeDensity := 1/100
    topBandVar := 0, bottomBandVar := 0, leftBandVar := 0, rightBandVar := 0 }

/-- Weights that sum to 1 without being non-negative. -/
def cfgNegWeights : ClassifierConfig :=
  { color_variance_weight := 2, edge_complexity_weight := -1
    size_weight := 0, perforation_weight := 0 }

/-- A well-formed Stage-1A candidate. -/
def goodPoly : DetectedPolygon :=
  { vertices := [(0, 0), (10, 0), (10, 10), (0, 10)]
    bounding_box := (0, 0, 11, 11), shape_type := "quadrilateral"
    area := 100, aspect := 1, cropped_image := idealCrop, confidence := 1 }

/-- A Stage-1A candidate whose crop is degenerate. -/
def degeneratePoly : DetectedPolygon :=
  { goodPoly with cropped_image := emptyCrop }

/-- A fallback detection without a crop. -/
def noCropDet : YOLODetection :=
  { bounding_box := (0, 0, 10, 10), confidence := 7/10
    cropped_image := none, class_name := "stamp" }

/-- A reference entry used in searcher fixtures. -/
def entryA : RAGEntry :=
  { colnect_id := "A", colnect_url := "", image_url := ""
    description := "red stamp", embedding := [1], country := "BE", year := 1950 }

/-- A second reference entry. -/
def entryB : RAGEntry :=
  { colnect_id := "B", colnect_url := "", image_url := ""
    description := "blue stamp", embedding := [2], country := "NL", year := 1960 }

/-- A store whose single answer has similarity 95/100. -/
def storeHigh : VectorStore := fun _ _ _ _ _ => [(entryA, 95/100)]

/-- A store whose single answer is entryB at similarity 8/10. -/
def storeB : VectorStore := fun _ _ _ _ _ => [(entryB, 8/10)]

/-- An embedder with a fixed response. -/
def embedOne : Embedder := fun _ => [1]

/-- A lookup knowing only entryA. -/
def lookupA : String → Option RAGEntry :=
  fun s => if s = "A" then some entryA else none

/-- The sample quadrilateral returned by the approximation oracle fixture. -/
def squareApprox : ApproxPoly :=
  { points := [(0, 0), (9, 0), (9, 9), (0, 9)], convex := true }

/-- Approximation oracle fixture: every contour approximates to the sample
square. -/
def apxSquare : Contour → ℚ → ApproxPoly := fun _ _ => squareApprox

/-- Crop-extraction oracle fixture. -/
def extIdeal : List (ℤ × ℤ) → String → Crop := fun _ _ => idealCrop

/-- The candidate process_contour produces from the square fixture on a
contour of area 100 in an image of area 10000 under the default config. -/
def squarePoly : DetectedPolygon :=
  { vertices := squareApprox.points
    bounding_box := (0, 0, 10, 10), shape_type := "quadrilateral"
    area := 100, aspect := 1, cropped_image := idealCrop, confidence := 1 }

/-- The classification the default heuristic classifier produces on
idealCrop: every sub-heuristic scores 1. -/
def idealCls : StampClassification :=
  { is_stamp := true, confidence := 1, reason := "color_variance"
    details := [("color_variance", 1), ("edge_complexity", 1),
      ("size_plausibility", 1), ("perforation_hint", 1)] }

/-! ## Helper lemmas -/

theorem bind_eq_exceptBind {ε α β : Type} (x : Except ε α)
    (f : α → Except ε β) : x >>= f = Except.bind x f := rfl

theorem exceptBind_ok {ε α β : Type} (a : α) (f : α → Except ε β) :
    Except.bind (Except.ok a) f = f a := rfl

theorem exceptBind_error {ε α β : Type} (e : ε) (f : α → Except ε β) :
    Except.bind (Except.error e) f = Except.error e := rfl

theorem pyMaxPair_mem (l : List (String × ℚ)) :
    ∀ p : String × ℚ, pyMaxPair p l ∈ p :: l := by
  induction l with
  | nil => intro p; simp [pyMaxPair]
  | cons q rest ih =>
    intro p
    rw [pyMaxPair]
    rcases List.mem_cons.mp (ih (if p.2 < q.2 then q else p)) with h | h
    · rw [h]
      split
      · exact List.mem_cons_of_mem _ (List.mem_cons_self _ _)
      · exact List.mem_cons_self _ _
    · exact List.mem_cons_of_mem _ (List.mem_cons_of_mem _ h)

theorem pyMaxPair_ge (l : List (String × ℚ)) :
    ∀ p : String × ℚ, ∀ q ∈ p :: l, q.2 ≤ (pyMaxPair p l).2 := by
  induction l with
  | nil =>
    intro p q hq
    rcases List.mem_cons.mp hq with h | h
    · rw [h]; exact le_refl _
    · cases h
  | cons r rest ih =>
    intro p q hq
    rw [pyMaxPair]
    have hp : p.2 ≤ (if p.2 < r.2 then r else p).2 := by
      split
      · exact le_of_lt (by assumption)
      · exact le_refl _
    have hr : r.2 ≤ (if p.2 < r.2 then r else p).2 := by
      split
      · exact le_refl _
      · exact le_of_not_lt (by assumption)
    have hbest := ih (if p.2 < r.2 then r else p)
    rcases List.mem_cons.mp hq with rfl | h
    · exact le_trans hp (hbest _ (List.mem_cons_self _ _))
    · rcases List.mem_cons.mp h with rfl | h'
      · exact le_trans hr (hbest _ (List.mem_cons_self _ _))
      · exact hbest q (List.mem_cons_of_mem _ h')

theorem pyMinPair_mem (l : List (String × ℚ)) :
    ∀ p : String × ℚ, pyMinPair p l ∈ p :: l := by
  induction l with
  | nil => intro p; simp [pyMinPair]
  | cons q rest ih =>
    intro p
    rw [pyMinPair]
    rcases List.mem_cons.mp (ih (if q.2 < p.2 then q else p)) with h | h
    · rw [h]
      split
      · exact List.mem_cons_of_mem _ (List.mem_cons_self _ _)
      · exact List.mem_cons_self _ _
    · exact List.mem_cons_of_mem _ (List.mem_cons_of_mem _ h)

theorem pyMinPair_le (l : List (String × ℚ)) :
    ∀ p : String × ℚ, ∀ q ∈ p :: l, (pyMinPair p l).2 ≤ q.2 := by
  induction l with
  | nil =>
    intro p q hq
    rcases List.mem_cons.mp hq with h | h
    · rw [h]; exact le_refl _
    · cases h
  | cons r rest ih =>
    intro p q hq
    rw [pyMinPair]
    have hp : (if r.2 < p.2 then r else p).2 ≤ p.2 := by
      split
      · exact le_of_lt (by assumption)
      · exact le_refl _
    have hr : (if r.2 < p.2 then r else p).2 ≤ r.2 := by
      split
      · exact le_refl _
      · exact le_of_not_lt (by assumption)
    have hbest := ih (if r.2 < p.2 then r else p)
    rcases List.mem_cons.mp hq with rfl | h
    · exact le_trans (hbest _ (List.mem_cons_self _ _)) hp
    · rcases List.mem_cons.mp h with rfl | h'
      · exact le_trans (hbest _ (List.mem_cons_self _ _)) hr
      · exact hbest q (List.mem_cons_of_mem _ h')

theorem rankifyFrom_length (l : List (RAGEntry × ℚ)) :
    ∀ m, (rankifyFrom m l).length = l.length := by
  induction l with
  | nil => intro m; simp [rankifyFrom]
  | cons p rest ih => intro m; cases p; simp [rankifyFrom, ih]

theorem rankifyFrom_rank (l : List (RAGEntry × ℚ)) :
    ∀ m i (h : i < (rankifyFrom m l).length),
      ((rankifyFrom m l).get ⟨i, h⟩).rank = m + i + 1 := by
  induction l with
  | nil => intro m i h; simp [rankifyFrom] at h
  | cons p rest ih =>
    intro m i h
    cases p with
    | mk e s =>
      cases i with
      | zero => simp [rankifyFrom]
      | succ j =>
        have h' : j < (rankifyFrom (m + 1) rest).length := by
          simpa [rankifyFrom] using h
        have := ih (m + 1) j h'
        simpa [rankifyFrom, Nat.add_assoc, Nat.add_comm, Nat.add_left_comm]
          using this

theorem rankifyFrom_entry_mem (l : List (RAGEntry × ℚ)) :
    ∀ m r, r ∈ rankifyFrom m l → ∃ p ∈ l, r.entry = p.1 := by
  induction l with
  | nil => intro m r hr; simp [rankifyFrom] at hr
  | cons p rest ih =>
    intro m r hr
    cases p with
    | mk e s =>
      rcases List.mem_cons.mp (by simpa [rankifyFrom] using hr) with h | h
      · exact ⟨(e, s), List.mem_cons_self _ _, by rw [h]⟩
      · rcases ih (m + 1) r h with ⟨q, hq, hq'⟩
        exact ⟨q, List.mem_cons_of_mem _ hq, hq'⟩

theorem check_color_variance_bounds (cfg : ClassifierConfig) (c : Crop)
    (h : 0 ≤ c.labVariance) :
    0 ≤ check_color_variance cfg c ∧ check_color_variance cfg c ≤ 1 := by
  unfold check_color_variance
  split_ifs
  · exact ⟨by norm_num, by norm_num⟩
  · exact ⟨le_min (div_nonneg h (by norm_num)) zero_le_one, min_le_right _ _⟩
  · exact ⟨by norm_num, by norm_num⟩

theorem edge_complexity_score_bounds (cfg : ClassifierConfig) (c : Crop)
    (h : 0 ≤ c.edgeDensity) :
    0 ≤ edge_complexity_score cfg c ∧ edge_complexity_score cfg c ≤ 1 := by
  unfold edge_complexity_score
  split_ifs
  · exact ⟨by norm_num, by norm_num⟩
  · exact ⟨le_min (div_nonneg h (by norm_num)) zero_le_one, min_le_right _ _⟩

theorem check_size_bounds (cfg : ClassifierConfig) (c : Crop) :
    0 ≤ check_size cfg c ∧ check_size cfg c ≤ 1 := by
  unfold check_size
  have habs₁ : (0 : ℚ) ≤ |(c.width : ℚ) - 150| / 150 := by positivity
  have habs₂ : (0 : ℚ) ≤ |(c.height : ℚ) - 180| / 180 := by positivity
  have h₁ : (0 : ℚ) ≤ min (|(c.width : ℚ) - 150| / 150) (7/10) :=
    le_min habs₁ (by norm_num)
  have h₂ : (0 : ℚ) ≤ min (|(c.height : ℚ) - 180| / 180) (7/10) :=
    le_min habs₂ (by norm_num)
  have h₃ : min (|(c.width : ℚ) - 150| / 150) (7/10) ≤ 7/10 := min_le_right _ _
  have h₄ : min (|(c.height : ℚ) - 180| / 180) (7/10) ≤ 7/10 := min_le_right _ _
  split_ifs <;> constructor <;> linarith

theorem perforation_score_of_bounds (cfg : ClassifierConfig) (l : List ℚ) :
    0 ≤ perforation_score_of cfg l ∧ perforation_score_of cfg l ≤ 1 := by
  unfold perforation_score_of
  by_cases h1 : l = []
  · rw [if_pos h1]; norm_num
  · rw [if_neg h1]
    by_cases h2 : cfg.perforation_variance_high < l.sum / (l.length : ℚ)
    · rw [if_pos h2]; norm_num
    · rw [if_neg h2]
      by_cases h3 : l.sum / (l.length : ℚ) < cfg.perforation_variance_low
      · rw [if_pos h3]; norm_num
      · rw [if_neg h3]; norm_num

theorem check_perforation_hint_bounds (cfg : ClassifierConfig) (c : Crop) :
    0 ≤ check_perforation_hint cfg c ∧ check_perforation_hint cfg c ≤ 1 := by
  unfold check_perforation_hint
  split_ifs <;>
    first
      | exact perforation_score_of_bounds _ _
      | (constructor <;> norm_num)

theorem cvtOk_idealCrop : idealCrop.cvtOk = true := by decide

theorem check_color_variance_idealCrop :
    check_color_variance ({} : ClassifierConfig) idealCrop = 1 := by
  simp only [check_color_variance, idealCrop]
  norm_num [min_def, Crop.cvtOk]

theorem edge_complexity_score_idealCrop :
    edge_complexity_score ({} : ClassifierConfig) idealCrop = 1 := by
  simp only [edge_complexity_score, idealCrop]
  norm_num [min_def]

theorem check_size_idealCrop :
    check_size ({} : ClassifierConfig) idealCrop = 1 := by
  simp only [check_size, idealCrop]
  norm_num [min_def]

theorem check_perforation_hint_idealCrop :
    check_perforation_hint ({} : ClassifierConfig) idealCrop = 1 := by
  simp only [check_perforation_hint, perforation_score_of, idealCrop]
  norm_num [Crop.cvtOk]
  exact List.cons_ne_nil _ _

theorem heuristic_check_idealCrop :
    heuristic_check ({} : ClassifierConfig) idealCrop = .ok idealCls := by
  unfold heuristic_check check_edge_complexity
  rw [cvtOk_idealCrop]
  simp only [Bind.bind, Except.bind, not_true, if_false, reduceIte,
    check_color_variance_idealCrop, edge_complexity_score_idealCrop,
    check_size_idealCrop, check_perforation_hint_idealCrop]
  norm_num [pyMaxPair, idealCls]

theorem heuristic_check_ok (cfg : ClassifierConfig) (c : Crop)
    (cls : StampClassification) (h : heuristic_check cfg c = .ok cls) :
    c.cvtOk = true ∧
    cls = ⟨decide (cfg.confidence_threshold ≤
        (check_color_variance cfg c * cfg.color_variance_weight +
          edge_complexity_score cfg c * cfg.edge_complexity_weight +
          check_size cfg c * cfg.size_weight +
          check_perforation_hint cfg c * cfg.perforation_weight)),
      check_color_variance cfg c * cfg.color_variance_weight +
        edge_complexity_score cfg c * cfg.edge_complexity_weight +
        check_size cfg c * cfg.size_weight +
        check_perforation_hint cfg c * cfg.perforation_weight,
      (if cfg.confidence_threshold ≤
          (check_color_variance cfg c * cfg.color_variance_weight +
            edge_complexity_score cfg c * cfg.edge_complexity_weight +
            check_size cfg c * cfg.size_weight +
            check_perforation_hint cfg c * cfg.perforation_weight) then
        (pyMaxPair ("color_variance", check_color_variance cfg c)
          [("edge_complexity", edge_complexity_score cfg c),
           ("size_plausibility", check_size cfg c),
           ("perforation_hint", check_perforation_hint cfg c)]).1
      else
        (pyMinPair ("color_variance", check_color_variance cfg c)
          [("edge_complexity", edge_complexity_score cfg c),
           ("size_plausibility", check_size cfg c),
           ("perforation_hint", check_perforation_hint cfg c)]).1),
      [("color_variance", check_color_variance cfg c),
       ("edge_complexity", edge_complexity_score cfg c),
       ("size_plausibility", check_size cfg c),
       ("perforation_hint", check_perforation_hint cfg c)]⟩ := by
  have hok : c.cvtOk = true := by
    cases hcv : c.cvtOk with
    | true => rfl
    | false =>
      unfold heuristic_check check_edge_complexity at h
      rw [hcv] at h
      simp [Bind.bind, Except.bind] at h
  refine ⟨hok, ?_⟩
  unfold heuristic_check check_edge_complexity at h
  rw [hok] at h
  simp only [not_true, if_false, reduceIte, Bind.bind, Except.bind,
    decide_eq_true_eq, Except.ok.injEq] at h
  exact h.symm

/-- C3 (amended): for every crop successfully classified by the heuristic
check, the confidence equals the weighted sum of the four sub-scores and the
verdict is accept exactly when the confidence reaches the threshold; when the
four weights are non-negative and sum to 1, the confidence lies in [0, 1]
(the last two hypotheses record that variances and densities measured on an
actual image are non-negative). -/
theorem classifier_confidence_spec (cfg : ClassifierConfig) (c : Crop)
    (cls : StampClassification) (h : heuristic_check cfg c = .ok cls) :
    (cls.confidence =
      check_color_variance cfg c * cfg.color_variance_weight +
        edge_complexity_score cfg c * cfg.edge_complexity_weight +
        check_size cfg c * cfg.size_weight +
        check_perforation_hint cfg c * cfg.perforation_weight) ∧
    (cls.is_stamp = true ↔ cfg.confidence_threshold ≤ cls.confidence) ∧
    (0 ≤ cfg.color_variance_weight → 0 ≤ cfg.edge_complexity_weight →
      0 ≤ cfg.size_weight → 0 ≤ cfg.perforation_weight →
      cfg.color_variance_weight + cfg.edge_complexity_weight +
        cfg.size_weight + cfg.perforation_weight = 1 →
      0 ≤ c.labVariance → 0 ≤ c.edgeDensity →
      0 ≤ cls.confidence ∧ cls.confidence ≤ 1) := by
  obtain ⟨hok, hcls⟩ := heuristic_check_ok cfg c cls h
  subst hcls
  refine ⟨rfl, by simp [decide_eq_true_eq], ?_⟩
  intro hw1 hw2 hw3 hw4 hsum hlab hedge
  obtain ⟨s1l, s1u⟩ := check_color_variance_bounds cfg c hlab
  obtain ⟨s2l, s2u⟩ := edge_complexity_score_bounds cfg c hedge
  obtain ⟨s3l, s3u⟩ := check_size_bounds cfg c
  obtain ⟨s4l, s4u⟩ := check_perforation_hint_bounds cfg c
  have m1 : check_color_variance cfg c * cfg.color_variance_weight ≤
      cfg.color_variance_weight := mul_le_of_le_one_left hw1 s1u
  have m2 : edge_complexity_score cfg c * cfg.edge_complexity_weight ≤
      cfg.edge_complexity_weight := mul_le_of_le_one_left hw2 s2u
  have m3 : check_size cfg c * cfg.size_weight ≤ cfg.size_weight :=
    mul_le_of_le_one_left hw3 s3u
  have m4 : check_perforation_hint cfg c * cfg.perforation_weight ≤
      cfg.perforation_weight := mul_le_of_le_one_left hw4 s4u
  have n1 := mul_nonneg s1l hw1
  have n2 := mul_nonneg s2l hw2
  have n3 := mul_nonneg s3l hw3
  have n4 := mul_nonneg s4l hw4
  constructor
  · simp only [StampClassification.confidence]
    linarith
  · simp only [StampClassification.confidence]
    linarith

/-- C3 counterexample: with weights 2, -1, 0, 0 — which sum to 1 — a crop
with maximal color variance and almost no edges gets confidence 9/5, outside
[0, 1]; the claim as stated, quantifying over every configuration whose
weights sum to 1, therefore fails. -/
theorem classifier_confidence_cex :
    (cfgNegWeights.color_variance_weight + cfgNegWeights.edge_complexity_weight +
      cfgNegWeights.size_weight + cfgNegWeights.perforation_weight = 1) ∧
    (heuristic_check cfgNegWeights colorfulFlatCrop).toOption.map
      StampClassification.confidence = some (9/5) ∧
    ¬ ((9/5 : ℚ) ≤ 1) := by
  have hcvt : colorfulFlatCrop.cvtOk = true := by decide
  have h1 : check_color_variance cfgNegWeights colorfulFlatCrop = 1 := by
    simp only [check_color_variance, cfgNegWeights, colorfulFlatCrop]
    norm_num [min_def, Crop.cvtOk]
  have h2 : edge_complexity_score cfgNegWeights colorfulFlatCrop = 2/10 := by
    simp only [edge_complexity_score, cfgNegWeights, colorfulFlatCrop]
    norm_num
  have h3 : check_size cfgNegWeights colorfulFlatCrop = 11/18 := by
    simp only [check_size, cfgNegWeights, colorfulFlatCrop]
    norm_num [min_def, abs_of_nonneg, abs_of_nonpos]
  have h4 : check_perforation_hint cfgNegWeights colorfulFlatCrop = 3/10 := by
    simp only [check_perforation_hint, perforation_score_of,
      cfgNegWeights, colorfulFlatCrop]
    norm_num [Crop.cvtOk]
    exact List.cons_ne_nil _ _
  refine ⟨by norm_num [cfgNegWeights], ?_, by norm_num⟩
  unfold heuristic_check check_edge_complexity
  rw [hcvt]
  simp only [Bind.bind, Except.bind, not_true, if_false, reduceIte,
    h1, h2, h3, h4]
  norm_num [cfgNegWeights, Except.toOption]

/-- C3 witness: on the ideal crop under the default configuration, all
hypotheses of the amended claim hold and the confidence is inside [0, 1]. -/
theorem classifier_confidence_spec_witness :
    heuristic_check ({} : ClassifierConfig) idealCrop = .ok idealCls ∧
    (0 ≤ idealCls.confidence ∧ idealCls.confidence ≤ 1) :=
  ⟨heuristic_check_idealCrop,
    (classifier_confidence_spec {} idealCrop idealCls
        heuristic_check_idealCrop).2.2
      (by norm_num) (by norm_num) (by norm_num) (by norm_num) (by norm_num)
      (by norm_num [idealCrop]) (by norm_num [idealCrop])⟩

/-- C6: for every crop classified in heuristic mode, the reason names a
sub-heuristic whose score attains the maximum of the four scores when the
verdict is accept, and the minimum when it is reject. -/
theorem classifier_reason_extremal (cfg : ClassifierConfig) (c : Crop)
    (cls : StampClassification) (h : heuristic_check cfg c = .ok cls) :
    (cls.is_stamp = true →
      ∃ v, (cls.reason, v) ∈ cls.details ∧ ∀ p ∈ cls.details, p.2 ≤ v) ∧
    (cls.is_stamp = false →
      ∃ v, (cls.reason, v) ∈ cls.details ∧ ∀ p ∈ cls.details, v ≤ p.2) := by
  obtain ⟨hok, hcls⟩ := heuristic_check_ok cfg c cls h
  subst hcls
  constructor
  · intro hacc
    simp only [StampClassification.is_stamp, decide_eq_true_eq] at hacc
    simp only [StampClassification.reason, StampClassification.details,
      if_pos hacc]
    refine ⟨(pyMaxPair ("color_variance", check_color_variance cfg c)
      [("edge_complexity", edge_complexity_score cfg c),
       ("size_plausibility", check_size cfg c),
       ("perforation_hint", check_perforation_hint cfg c)]).2, ?_, ?_⟩
    · rw [Prod.mk.eta]
      exact pyMaxPair_mem _ _
    · intro p hp
      exact pyMaxPair_ge _ _ p hp
  · intro hrej
    simp only [StampClassification.is_stamp, decide_eq_false_iff_not] at hrej
    simp only [StampClassification.reason, StampClassification.details,
      if_neg hrej]
    refine ⟨(pyMinPair ("color_variance", check_color_variance cfg c)
      [("edge_complexity", edge_complexity_score cfg c),
       ("size_plausibility", check_size cfg c),
       ("perforation_hint", check_perforation_hint cfg c)]).2, ?_, ?_⟩
    · rw [Prod.mk.eta]
      exact pyMinPair_mem _ _
    · intro p hp
      exact pyMinPair_le _ _ p hp

/-- C6 witness: on the ideal crop under the default configuration the
verdict is accept and the reason scores maximal among the four. -/
theorem classifier_reason_extremal_witness :
    heuristic_check ({} : ClassifierConfig) idealCrop = .ok idealCls ∧
    (idealCls.is_stamp = true →
      ∃ v, (idealCls.reason, v) ∈ idealCls.details ∧
        ∀ p ∈ idealCls.details, p.2 ≤ v) :=
  ⟨heuristic_check_idealCrop,
    (classifier_reason_extremal {} idealCrop idealCls
      heuristic_check_idealCrop).1⟩

theorem classify_heuristic_mode (cfg : ClassifierConfig) (c : Crop)
    (h : cfg.mode = "heuristic") :
    classify cfg none c = heuristic_check cfg c := by
  unfold classify
  rw [h]
  simp only [Option.isSome_none, Bool.false_eq_true, and_false, if_false,
    reduceIte]

theorem classify_emptyCrop :
    classify ({} : ClassifierConfig) none emptyCrop = .error () := by
  rw [classify_heuristic_mode _ _ rfl]
  unfold heuristic_check check_edge_complexity
  have hcv : emptyCrop.cvtOk = false := by decide
  rw [hcv]
  simp [Bind.bind, Except.bind]

theorem classify_idealCrop :
    classify ({} : ClassifierConfig) none idealCrop = .ok idealCls := by
  rw [classify_heuristic_mode _ _ rfl]
  exact heuristic_check_idealCrop

/-- C5: the claim fails on the code.  The classifier's edge-complexity check
does not guard its cvtColor call, and detect_stamps does not catch
per-candidate classification failures, so one degenerate crop aborts the
whole batch even though a healthy candidate precedes it, instead of being
dropped with a warning. -/
theorem detect_stamps_degenerate_crop_aborts :
    classify ({} : ClassifierConfig) none emptyCrop = .error () ∧
    detect_stamps ({} : PipelineConfig) ({} : ClassifierConfig) none
      [goodPoly, degeneratePoly] (some []) true = .error () := by
  refine ⟨classify_emptyCrop, ?_⟩
  have hs : stage1B ({} : ClassifierConfig) none 0 [goodPoly, degeneratePoly] =
      .error () := by
    unfold stage1B
    rw [show goodPoly.cropped_image = idealCrop from rfl, classify_idealCrop]
    unfold stage1B
    rw [show degeneratePoly.cropped_image = emptyCrop from rfl,
      classify_emptyCrop]
    simp [Bind.bind, Except.bind]
  unfold detect_stamps
  rw [hs]
  simp [Bind.bind, Except.bind]

/-- C2: the fallback detector runs exactly when Stage 1B accepted nothing and
fallback is enabled: with a non-empty accepted list the result is the Stage-1B
partition whatever the fallback detector would say; with an empty accepted
list and fallback enabled, the accepted output is exactly the fallback run's
output and the rejected output is unchanged — so fallback-rejected boxes are
never reported; and inside the fallback run every box with a crop goes
through the classifier and contributes a stamp exactly when accepted. -/
theorem detect_stamps_fallback_spec (pcfg : PipelineConfig)
    (cfg : ClassifierConfig) (model : Option Unit)
    (polygons : List DetectedPolygon) (yolo : Option (List YOLODetection))
    (u : Bool) (acc rej : List DetectedStamp)
    (h1B : stage1B cfg model 0 polygons = .ok (acc, rej)) :
    (acc ≠ [] ∨ u = false ∨ pcfg.enable_yolo_fallback = false →
      detect_stamps pcfg cfg model polygons yolo u = .ok (acc, rej)) ∧
    (acc = [] → u = true → pcfg.enable_yolo_fallback = true →
      detect_stamps pcfg cfg model polygons yolo u =
        (run_yolo_fallback cfg model yolo).map (fun ys => (ys, rej))) ∧
    (∀ i det rest ys, runYoloGo cfg model i (det :: rest) = .ok ys →
      ∀ crop, det.cropped_image = some crop →
      ∃ cls rest', classify cfg model crop = .ok cls ∧
        runYoloGo cfg model (i + 1) rest = .ok rest' ∧
        ys = (if cls.is_stamp then mkYoloStamp i det cls :: rest'
          else rest')) := by
  refine ⟨?_, ?_, ?_⟩
  · intro hcase
    unfold detect_stamps
    rw [h1B]
    simp only [Bind.bind, Except.bind]
    rw [if_neg]
    intro hcond
    rcases hcase with hne | hu | hen
    · exact hne (List.length_eq_zero.mp hcond.1)
    · simp [hu] at hcond
    · simp [hen] at hcond
  · intro he hu hen
    subst he
    unfold detect_stamps
    rw [h1B]
    simp only [Bind.bind, Except.bind]
    rw [if_pos ⟨rfl, hu, hen⟩]
    cases hrf : run_yolo_fallback cfg model yolo with
    | error e => simp [Except.map]
    | ok ys => simp [Except.map]
  · intro i det rest ys h crop hcrop
    unfold runYoloGo at h
    rw [hcrop] at h
    dsimp only at h
    cases hcl : classify cfg model crop with
    | error e =>
      rw [hcl] at h
      simp only [bind_eq_exceptBind, exceptBind_error] at h
      simp at h
    | ok cls =>
      rw [hcl] at h
      simp only [bind_eq_exceptBind, exceptBind_ok] at h
      cases hrest : runYoloGo cfg model (i + 1) rest with
      | error e =>
        rw [hrest] at h
        simp only [exceptBind_error] at h
        simp at h
      | ok rest' =>
        rw [hrest] at h
        simp only [exceptBind_ok] at h
        refine ⟨cls, rest', rfl, rfl, ?_⟩
        by_cases hst : cls.is_stamp = true
        · rw [if_pos hst] at h ⊢
          simpa using h.symm
        · rw [if_neg hst] at h ⊢
          simpa using h.symm

/-- C2 witness: with no Stage-1A polygons, fallback enabled and an available
fallback detector, detect_stamps is the fallback run paired with the empty
rejected list. -/
theorem detect_stamps_fallback_spec_witness :
    detect_stamps ({} : PipelineConfig) ({} : ClassifierConfig) none []
      (some []) true =
      (run_yolo_fallback ({} : ClassifierConfig) none (some [])).map
        (fun ys => (ys, ([] : List DetectedStamp))) :=
  (detect_stamps_fallback_spec {} {} none [] (some []) true [] [] rfl).2.1
    rfl rfl rfl

/-- C10: every stamp produced by the fallback run has classifier_passed true,
no vertices, shape quadrilateral and source yolo_fallback; a fallback
detection without a crop is accepted unconditionally, without consulting the
classifier, and its stamp carries the raw detector confidence as classifier
confidence. -/
theorem yolo_fallback_stamp_invariants (cfg : ClassifierConfig)
    (model : Option Unit) :
    (∀ i dets ys, runYoloGo cfg model i dets = .ok ys →
      ∀ s ∈ ys, s.classifier_passed = true ∧ s.vertices = none ∧
        s.shape_type = "quadrilateral" ∧ s.source = "yolo_fallback") ∧
    (∀ i det rest, det.cropped_image = none →
      runYoloGo cfg model i (det :: rest) =
        (runYoloGo cfg model (i + 1) rest).map
          (fun ys => mkYoloStamp i det (yoloNoCropClassification det) :: ys)) ∧
    (∀ i det,
      (mkYoloStamp i det (yoloNoCropClassification det)).classifier_confidence
        = det.confidence) := by
  refine ⟨?_, ?_, fun i det => rfl⟩
  · intro i dets
    induction dets generalizing i with
    | nil =>
      intro ys h s hs
      unfold runYoloGo at h
      simp only [Except.ok.injEq] at h
      subst h
      simp at hs
    | cons det rest ih =>
      intro ys h s hs
      unfold runYoloGo at h
      have hcls : ∀ cls : StampClassification,
          Except.bind (runYoloGo cfg model (i + 1) rest)
            (fun stamps =>
              if cls.is_stamp = true then
                Except.ok (mkYoloStamp i det cls :: stamps)
              else Except.ok stamps) = Except.ok ys →
          s ∈ ys →
          s.classifier_passed = true ∧ s.vertices = none ∧
            s.shape_type = "quadrilateral" ∧ s.source = "yolo_fallback" := by
        intro cls hm hmem
        cases hrest : runYoloGo cfg model (i + 1) rest with
        | error e =>
          rw [hrest] at hm
          simp only [exceptBind_error] at hm
          simp at hm
        | ok stamps =>
          rw [hrest] at hm
          simp only [exceptBind_ok] at hm
          by_cases hst : cls.is_stamp = true
          · rw [if_pos hst] at hm
            simp only [Except.ok.injEq] at hm
            subst hm
            rcases List.mem_cons.mp hmem with rfl | hmem'
            · exact ⟨rfl, rfl, rfl, rfl⟩
            · exact ih (i + 1) stamps hrest s hmem'
          · rw [if_neg hst] at hm
            simp only [Except.ok.injEq] at hm
            subst hm
            exact ih (i + 1) stamps hrest s hmem
      cases hcrop : det.cropped_image with
      | none =>
        rw [hcrop] at h
        dsimp only at h
        simp only [bind_eq_exceptBind, exceptBind_ok] at h
        exact hcls (yoloNoCropClassification det) h hs
      | some crop =>
        rw [hcrop] at h
        dsimp only at h
        cases hcl : classify cfg model crop with
        | error e =>
          rw [hcl] at h
          simp only [bind_eq_exceptBind, exceptBind_error] at h
          simp at h
        | ok cls =>
          rw [hcl] at h
          simp only [bind_eq_exceptBind, exceptBind_ok] at h
          exact hcls cls h hs
  · intro i det rest hcrop
    conv_lhs => unfold runYoloGo
    rw [hcrop]
    dsimp only
    cases hrest : runYoloGo cfg model (i + 1) rest with
    | error e =>
      simp [Except.map, Bind.bind, Except.bind]
    | ok stamps =>
      simp [Except.map, Bind.bind, Except.bind, yoloNoCropClassification]

/-- C10 witness: a single cropless fallback detection yields exactly its
unconditionally accepted stamp. -/
theorem yolo_fallback_stamp_invariants_witness :
    runYoloGo ({} : ClassifierConfig) none 0 [noCropDet] =
      .ok [mkYoloStamp 0 noCropDet (yoloNoCropClassification noCropDet)] := by
  have h := (yolo_fallback_stamp_invariants ({} : ClassifierConfig) none).2.1
    0 noCropDet [] rfl
  simpa [runYoloGo, Except.map] using h

/-- C1: identify issues the underlying search with limit twice the requested
top_k and the configured minimum-similarity floor; zero results give tier
no_match with empty matches and no auto match; a first result at or above the
auto threshold gives tier auto_accept with that result as auto match and the
first top_k results retained; otherwise tier review with the first top_k
results and no auto match. -/
theorem identify_tiering (settings : Settings) (embedFn : Embedder)
    (store : VectorStore) (description : String) (top_k : ℕ)
    (country : Option String) (year : Option ℤ) :
    (searchRAG settings embedFn store description (top_k * 2) country year
        (some settings.RAG_MATCH_MIN_THRESHOLD) = [] →
      identifyRAG settings embedFn store description top_k country year =
        ⟨description, [], .no_match, none⟩) ∧
    (∀ best rest,
      searchRAG settings embedFn store description (top_k * 2) country year
        (some settings.RAG_MATCH_MIN_THRESHOLD) = best :: rest →
      settings.RAG_MATCH_AUTO_THRESHOLD ≤ best.similarity →
      identifyRAG settings embedFn store description top_k country year =
        ⟨description, (best :: rest).take top_k, .auto_accept, some best⟩) ∧
    (∀ best rest,
      searchRAG settings embedFn store description (top_k * 2) country year
        (some settings.RAG_MATCH_MIN_THRESHOLD) = best :: rest →
      best.similarity < settings.RAG_MATCH_AUTO_THRESHOLD →
      identifyRAG settings embedFn store description top_k country year =
        ⟨description, (best :: rest).take top_k, .review, none⟩) := by
  refine ⟨?_, ?_, ?_⟩
  · intro h
    unfold identifyRAG
    rw [h]
  · intro best rest h hsim
    unfold identifyRAG
    rw [h]
    dsimp only
    rw [if_pos hsim]
  · intro best rest h hsim
    unfold identifyRAG
    rw [h]
    dsimp only
    rw [if_neg (not_le.mpr hsim)]

/-- C1 witness: a store answering a single entry at similarity 95/100 under
the default thresholds yields auto_accept with that entry as auto match. -/
theorem identify_tiering_witness :
    identifyRAG ({} : Settings) embedOne storeHigh "red stamp" 3 none none =
      ⟨"red stamp", [⟨entryA, 95/100, 1⟩], .auto_accept,
        some ⟨entryA, 95/100, 1⟩⟩ :=
  (identify_tiering {} embedOne storeHigh "red stamp" 3 none none).2.1
    ⟨entryA, 95/100, 1⟩ [] rfl (by norm_num : (9 : ℚ)/10 ≤ 95/100)

/-- C9: identify is deterministic — two calls with the same description,
top_k and filters against the same embedder responses and the same vector
store responses return equal IdentificationResults. -/
theorem identify_deterministic (settings : Settings) (e1 e2 : Embedder)
    (s1 s2 : VectorStore) (d : String) (k : ℕ) (c : Option String)
    (y : Option ℤ) (he : e1 = e2) (hs : s1 = s2) :
    identifyRAG settings e1 s1 d k c y = identifyRAG settings e2 s2 d k c y := by
  subst he
  subst hs
  rfl

/-- C9 witness: the determinism theorem applied at a concrete searcher. -/
theorem identify_deterministic_witness :
    identifyRAG ({} : Settings) embedOne storeHigh "red stamp" 3 none none =
      identifyRAG ({} : Settings) embedOne storeHigh "red stamp" 3 none none :=
  identify_deterministic {} embedOne embedOne storeHigh storeHigh "red stamp"
    3 none none rfl rfl

/-- C4: a contour yields a candidate only if its area is within the
configured fraction of the image area, the Douglas-Peucker approximation at
epsilon = approx_epsilon times the perimeter has a vertex count within the
configured bounds, the approximation is convex whenever convexity is
required, and the bounding-rectangle aspect is within the configured bounds;
the candidate is tagged triangle exactly on 3 vertices and quadrilateral
otherwise. -/
theorem process_contour_filters (cfg : DetectionConfig)
    (approxFn : Contour → ℚ → ApproxPoly)
    (extractFn : List (ℤ × ℤ) → String → Crop)
    (contour : Contour) (image_area : ℚ) (p : DetectedPolygon)
    (h : process_contour cfg approxFn extractFn contour image_area = some p) :
    (image_area * cfg.min_area_frac ≤ contour.area ∧
      contour.area ≤ image_area * cfg.max_area_frac) ∧
    (cfg.min_vertices ≤
        (approxFn contour (cfg.approx_epsilon * contour.perimeter)).points.length ∧
      (approxFn contour
        (cfg.approx_epsilon * contour.perimeter)).points.length ≤
        cfg.max_vertices) ∧
    (cfg.require_convex = true →
      (approxFn contour (cfg.approx_epsilon * contour.perimeter)).convex = true) ∧
    (cfg.aspect_min ≤ p.aspect ∧ p.aspect ≤ cfg.aspect_max) ∧
    p.vertices =
      (approxFn contour (cfg.approx_epsilon * contour.perimeter)).points ∧
    p.shape_type = (if (approxFn contour
        (cfg.approx_epsilon * contour.perimeter)).points.length = 3 then
      "triangle" else "quadrilateral") := by
  unfold process_contour at h
  dsimp only at h
  rcases hbr : boundingRect (approxFn contour
      (cfg.approx_epsilon * contour.perimeter)).points with ⟨x, y, w, ht⟩
  rw [hbr] at h
  dsimp only at h
  by_cases h1 : contour.area < image_area * cfg.min_area_frac ∨
      contour.area > image_area * cfg.max_area_frac
  · rw [if_pos h1] at h
    exact absurd h (by simp)
  · rw [if_neg h1] at h
    by_cases h2 : (approxFn contour
          (cfg.approx_epsilon * contour.perimeter)).points.length <
        cfg.min_vertices ∨
        (approxFn contour
          (cfg.approx_epsilon * contour.perimeter)).points.length >
        cfg.max_vertices
    · rw [if_pos h2] at h
      exact absurd h (by simp)
    · rw [if_neg h2] at h
      by_cases h3 : cfg.require_convex = true ∧
          ¬ (approxFn contour
            (cfg.approx_epsilon * contour.perimeter)).convex = true
      · rw [if_pos h3] at h
        exact absurd h (by simp)
      · rw [if_neg h3] at h
        by_cases h4 : (if ht > 0 then (w : ℚ) / (ht : ℚ) else 0) <
            cfg.aspect_min ∨
            (if ht > 0 then (w : ℚ) / (ht : ℚ) else 0) > cfg.aspect_max
        · rw [if_pos h4] at h
          exact absurd h (by simp)
        · rw [if_neg h4] at h
          simp only [Option.some.injEq] at h
          subst h
          push_neg at h1 h2 h4
          refine ⟨⟨not_lt.mp (fun hlt => absurd hlt (not_lt.mpr h1.1)), h1.2⟩,
            ⟨h2.1, h2.2⟩, ?_, ⟨h4.1, h4.2⟩, rfl, rfl⟩
          intro hcv
          by_contra hnc
          exact h3 ⟨hcv, hnc⟩

/-- C4 witness: a contour of area 100 in an image of area 10000 whose
approximation is the sample convex square passes every filter under the
default configuration, with aspect 1 inside the configured bounds. -/
theorem process_contour_filters_witness :
    process_contour ({} : DetectionConfig) apxSquare extIdeal
      ⟨100, 40⟩ 10000 = some squarePoly ∧
    (({} : DetectionConfig).aspect_min ≤ squarePoly.aspect ∧
      squarePoly.aspect ≤ ({} : DetectionConfig).aspect_max) :=
  ⟨by
    unfold process_contour apxSquare squareApprox boundingRect
    norm_num [squarePoly, extIdeal, apxSquare, squareApprox, min_def, max_def],
    (process_contour_filters {} apxSquare extIdeal ⟨100, 40⟩ 10000 squarePoly
      (by
        unfold process_contour apxSquare squareApprox boundingRect
        norm_num [squarePoly, extIdeal, apxSquare, squareApprox, min_def,
          max_def])).2.2.2.1⟩

theorem collectSimilar_eq (cid : String) (ex : Bool) (k : ℕ)
    (l : List (RAGEntry × ℚ)) :
    ∀ acc : List SearchResult,
    collectSimilar cid ex k acc l =
      acc ++ rankifyFrom acc.length
        ((l.filter (keepResult cid ex)).take
          (max k (acc.length + 1) - acc.length)) := by
  induction l with
  | nil =>
    intro acc
    simp [collectSimilar, rankifyFrom]
  | cons p rest ih =>
    intro acc
    cases p with
    | mk e s =>
      by_cases hsel : ex = true ∧ e.colnect_id = cid
      · have hkeep : keepResult cid ex (e, s) = false := by
          simp [keepResult, hsel.1, hsel.2]
        rw [collectSimilar, if_pos hsel, ih acc]
        simp [List.filter_cons, hkeep]
      · have hkeep : keepResult cid ex (e, s) = true := by
          simp only [keepResult, decide_eq_true_eq]
          exact hsel
        rw [collectSimilar, if_neg hsel]
        rw [show (List.filter (keepResult cid ex) ((e, s) :: rest)) =
          (e, s) :: List.filter (keepResult cid ex) rest from by
            simp [List.filter_cons, hkeep]]
        by_cases hbreak :
            k ≤ (acc ++ [(⟨e, s, acc.length + 1⟩ : SearchResult)]).length
        · rw [if_pos hbreak]
          have hlen : (acc ++ [(⟨e, s, acc.length + 1⟩ : SearchResult)]).length
              = acc.length + 1 := by simp
          have hcap : max k (acc.length + 1) - acc.length = 1 := by
            rw [hlen] at hbreak
            omega
          rw [hcap, List.take_succ_cons, List.take_zero, rankifyFrom,
            rankifyFrom]
        · rw [if_neg hbreak]
          have hlen : (acc ++ [(⟨e, s, acc.length + 1⟩ : SearchResult)]).length
              = acc.length + 1 := by simp
          have hk2 : acc.length + 2 ≤ k := by
            rw [hlen] at hbreak
            omega
          rw [ih (acc ++ [(⟨e, s, acc.length + 1⟩ : SearchResult)]), hlen]
          have hcap1 : max k (acc.length + 1 + 1) - (acc.length + 1) =
              k - acc.length - 1 := by omega
          have hcap2 : max k (acc.length + 1) - acc.length =
              (k - acc.length - 1) + 1 := by omega
          rw [hcap1, hcap2, List.take_succ_cons, rankifyFrom]
          simp [List.append_assoc]

/-- C7 (amended): on an existing entry with an embedding and top_k at least
1, find_similar with self-exclusion queries the store with limit top_k + 1
and returns exactly the store's order with the seed identifier filtered out,
truncated to top_k and ranked consecutively from 1 — hence never the seed,
and at most top_k results.  (A call with top_k = 0 instead returns up to one
result, see the counterexample.) -/
theorem find_similar_spec (lookup : String → Option RAGEntry)
    (store : VectorStore) (cid : String) (top_k : ℕ) (entry : RAGEntry)
    (hk : 1 ≤ top_k) (hlook : lookup cid = some entry)
    (hemb : entry.embedding ≠ []) :
    find_similar lookup store cid top_k true =
      .ok (find_similar_spec_list store cid top_k entry) ∧
    (∀ r ∈ find_similar_spec_list store cid top_k entry,
      r.entry.colnect_id ≠ cid) ∧
    (find_similar_spec_list store cid top_k entry).length ≤ top_k ∧
    (∀ i (h : i < (find_similar_spec_list store cid top_k entry).length),
      ((find_similar_spec_list store cid top_k entry).get ⟨i, h⟩).rank =
        i + 1) := by
  refine ⟨?_, ?_, ?_, ?_⟩
  · unfold find_similar
    rw [hlook]
    dsimp only
    rw [if_neg hemb, collectSimilar_eq]
    simp only [List.length_nil, List.nil_append, Nat.zero_add, Nat.sub_zero,
      max_eq_left hk]
    rfl
  · intro r hr
    unfold find_similar_spec_list at hr
    rcases rankifyFrom_entry_mem _ _ _ hr with ⟨p, hp, hpe⟩
    have hpf := List.take_subset _ _ hp
    have hkp : keepResult cid true p = true := List.of_mem_filter hpf
    rw [hpe]
    intro heq
    exact (of_decide_eq_true hkp) ⟨rfl, heq⟩
  · unfold find_similar_spec_list
    rw [rankifyFrom_length]
    exact le_trans (List.length_take_le _ _) (le_refl _)
  · intro i h
    unfold find_similar_spec_list at h ⊢
    rw [rankifyFrom_rank]
    omega

/-- C7 counterexample: the claim bounds the result count by top_k for every
call, but a top_k = 0 call on an existing embedded entry returns one result,
because the stop test runs only after an append. -/
theorem find_similar_topk_zero_cex :
    lookupA "A" = some entryA ∧ entryA.embedding ≠ [] ∧
    find_similar lookupA storeB "A" 0 true = .ok [⟨entryB, 8/10, 1⟩] := by
  refine ⟨rfl, by decide, rfl⟩

/-- C7 witness: a concrete call with top_k = 5 matching the spec-side result
list, with at most 5 results. -/
theorem find_similar_spec_witness :
    find_similar lookupA storeB "A" 5 true =
      .ok (find_similar_spec_list storeB "A" 5 entryA) ∧
    (find_similar_spec_list storeB "A" 5 entryA).length ≤ 5 :=
  ⟨(find_similar_spec lookupA storeB "A" 5 entryA (by norm_num) rfl
      (by decide)).1,
    (find_similar_spec lookupA storeB "A" 5 entryA (by norm_num) rfl
      (by decide)).2.2.1⟩

theorem lookup_cons_eq {β : Type} (k : ℕ) (v : β) (rest : List (ℕ × β)) :
    ((k, v) :: rest).lookup k = some v := by
  simp [List.lookup]

theorem lookup_cons_ne {β : Type} (k : ℕ) (v : β) (rest : List (ℕ × β))
    (i : ℕ) (h : i ≠ k) : ((k, v) :: rest).lookup i = rest.lookup i := by
  simp only [List.lookup]
  rw [show (i == k) = false from beq_eq_false_iff_ne.mpr h]

theorem processBatches_eq (api : String → List ℚ) :
    ∀ items : List (ℕ × String),
    processBatches api items = items.map (fun p => (p.1, api p.2)) := by
  intro items
  rw [processBatches]
  by_cases h : items = []
  · subst h
    simp
  · rw [if_neg h, processBatches_eq api (items.drop 2048),
      ← List.map_append, List.take_append_drop]
termination_by items => items.length
decreasing_by
  simp only [List.length_drop]
  have : 0 < items.length := List.length_pos.mpr h
  omega

theorem mem_enumFrom_of_mem (ts : List String) :
    ∀ (n : ℕ) (t : String), t ∈ ts → ∃ i, (i, t) ∈ List.enumFrom n ts := by
  induction ts with
  | nil =>
    intro n t ht
    cases ht
  | cons u ts ih =>
    intro n t ht
    rcases List.mem_cons.mp ht with rfl | ht'
    · exact ⟨n, List.mem_cons_self _ _⟩
    · rcases ih (n + 1) t ht' with ⟨i, hi⟩
      exact ⟨i, List.mem_cons_of_mem _ hi⟩

theorem enumFrom_filter_map_key_ge (api : String → List ℚ)
    (ts : List String) :
    ∀ (n : ℕ) (p : ℕ × List ℚ),
    p ∈ ((List.enumFrom n ts).filter
        (fun q => decide (¬ blankText q.2))).map
      (fun q => (q.1, api (pyStrip q.2))) → n ≤ p.1 := by
  induction ts with
  | nil =>
    intro n p hp
    simp [List.enumFrom] at hp
  | cons t ts ih =>
    intro n p hp
    rw [show List.enumFrom n (t :: ts) = (n, t) :: List.enumFrom (n + 1) ts
      from rfl, List.filter_cons] at hp
    by_cases hb : blankText t
    · rw [if_neg (by simp [hb])] at hp
      exact le_trans (Nat.le_succ n) (ih (n + 1) p hp)
    · rw [if_pos (by simp [hb])] at hp
      rw [List.map_cons] at hp
      rcases List.mem_cons.mp hp with rfl | hp'
      · exact le_refl n
      · exact le_trans (Nat.le_succ n) (ih (n + 1) p hp')

theorem lookup_none_of_keys_gt {β : Type} (i : ℕ) :
    ∀ l : List (ℕ × β), (∀ p ∈ l, i < p.1) → l.lookup i = none := by
  intro l
  induction l with
  | nil => intro _; rfl
  | cons q rest ih =>
    intro h
    cases q with
    | mk k v =>
      rw [lookup_cons_ne k v rest i
        (Nat.ne_of_lt (h (k, v) (List.mem_cons_self _ _)))]
      exact ih (fun p hp => h p (List.mem_cons_of_mem _ hp))

theorem assemble_eq (api : String → List ℚ) (ts : List String) :
    ∀ n : ℕ,
    (List.range ts.length).map
      (fun j => ((((List.enumFrom n ts).filter
          (fun q => decide (¬ blankText q.2))).map
        (fun q => (q.1, api (pyStrip q.2)))).lookup (n + j)).getD []) =
      ts.map (fun t => if blankText t then [] else api (pyStrip t)) := by
  induction ts with
  | nil =>
    intro n
    simp
  | cons t ts ih =>
    intro n
    rw [List.length_cons, List.range_succ_eq_map, List.map_cons, List.map_map,
      List.map_cons]
    rw [show List.enumFrom n (t :: ts) = (n, t) :: List.enumFrom (n + 1) ts
      from rfl, List.filter_cons]
    by_cases hb : blankText t
    · rw [if_neg (by simp [hb])]
      congr 1
      · rw [Nat.add_zero]
        rw [lookup_none_of_keys_gt n _
          (fun p hp => lt_of_lt_of_le (Nat.lt_succ_self n)
            (enumFrom_filter_map_key_ge api ts (n + 1) p hp))]
        simp [hb]
      · have hfun : ∀ j,
            ((fun j => ((((List.enumFrom (n + 1) ts).filter
                (fun q => decide (¬ blankText q.2))).map
              (fun q => (q.1, api (pyStrip q.2)))).lookup (n + j)).getD []) ∘
              Nat.succ) j =
            ((((List.enumFrom (n + 1) ts).filter
                (fun q => decide (¬ blankText q.2))).map
              (fun q => (q.1, api (pyStrip q.2)))).lookup ((n + 1) + j)).getD []
            := by
          intro j
          simp only [Function.comp]
          congr 2
          omega
        rw [List.map_congr_left (fun j _ => hfun j)]
        exact ih (n + 1)
    · rw [if_pos (by simp [hb]), List.map_cons]
      congr 1
      · rw [Nat.add_zero, lookup_cons_eq]
        simp [hb]
      · have hfun : ∀ j,
            ((fun j => (((n, api (pyStrip t)) ::
              ((List.enumFrom (n + 1) ts).filter
                (fun q => decide (¬ blankText q.2))).map
              (fun q => (q.1, api (pyStrip q.2)))).lookup (n + j)).getD []) ∘
              Nat.succ) j =
            ((((List.enumFrom (n + 1) ts).filter
                (fun q => decide (¬ blankText q.2))).map
              (fun q => (q.1, api (pyStrip q.2)))).lookup ((n + 1) + j)).getD []
            := by
          intro j
          simp only [Function.comp]
          rw [lookup_cons_ne _ _ _ _ (by omega)]
          congr 2
          omega
        rw [List.map_congr_left (fun j _ => hfun j)]
        exact ih (n + 1)

theorem embed_batch_eq (api : String → List ℚ) (texts : List String) :
    embed_batch api texts =
      texts.map (fun t => if blankText t then [] else api (pyStrip t)) := by
  unfold embed_batch
  by_cases h0 : texts = []
  · subst h0
    simp
  · rw [if_neg h0]
    dsimp only
    by_cases hv : (texts.enum.filter
        (fun p => decide (¬ blankText p.2))).map
        (fun p => (p.1, pyStrip p.2)) = []
    · rw [if_pos hv]
      have hblank : ∀ t ∈ texts, blankText t := by
        intro t ht
        rcases mem_enumFrom_of_mem texts 0 t ht with ⟨i, hi⟩
        have hfil := (List.map_eq_nil_iff.mp hv)
        rcases List.filter_eq_nil_iff.mp hfil (i, t) hi with hcontra
        by_contra hb
        exact hcontra (by simpa using hb)
      apply List.map_congr_left
      intro t ht
      rw [if_pos (hblank t ht)]
    · rw [if_neg hv, processBatches_eq api, List.map_map]
      have := assemble_eq api texts 0
      simp only [Nat.zero_add] at this
      rw [show texts.enum = List.enumFrom 0 texts from rfl]
      convert this using 3

/-- C8: embed raises an embedding error on empty or whitespace-only text;
embed_batch returns a list of the same length as its input, aligned with it
position by position, with each empty or whitespace-only input mapped to the
empty vector and each other input mapped to the provider's embedding of its
stripped text. -/
theorem embedder_blank_contract (api : String → List ℚ)
    (texts : List String) (t : String) (ht : blankText t) :
    embed api t = .error "Cannot embed empty text" ∧
    (embed_batch api texts).length = texts.length ∧
    embed_batch api texts =
      texts.map (fun u => if blankText u then [] else api (pyStrip u)) := by
  refine ⟨by simp [embed, ht], ?_, embed_batch_eq api texts⟩
  rw [embed_batch_eq]
  simp

/-- C8 witness: a whitespace-only text raises, and a batch of one valid and
one blank text keeps length and order with the blank slot empty. -/
theorem embedder_blank_contract_witness :
    embed embedOne " " = .error "Cannot embed empty text" ∧
    (embed_batch embedOne ["a", " "]).length =
      (["a", " "] : List String).length ∧
    embed_batch embedOne ["a", " "] =
      (["a", " "] : List String).map
        (fun u => if blankText u then [] else embedOne (pyStrip u)) :=
  embedder_blank_contract embedOne ["a", " "] " " (Or.inr rfl)

end Stamps
